import Mathlib

/-!
Shallow embedding of the Beat Maker Studio step sequencer
(`src/script.js`, with `src/unnamed/part_001` an equivalent variant that
synthesizes the drums instead of loading samples; the sequencer logic —
pattern matrix, tick handler, play/stop handlers, tempo handler — is the
same in both).

Modelling conventions:
  * The pattern matrix `pattern = instruments.map(() => Array(steps).fill(false))`
    is a `List (List Bool)`.
  * JS property reads `pattern[row][col]` that can see `undefined` are
    modelled with `Option Bool` (`none` = `undefined`); JS truthiness of
    such a read is `Option.getD false` (`undefined` is falsy).
  * The DOM event model: a click on a button whose `disabled` property is
    set does not dispatch the click handler, so the play/stop operations
    are guarded by the recorded `disabled` flags.
  * `Tone.Transport.scheduleRepeat` is called exactly once, inside
    `setupControls`; the state records the number of live tick-handler
    subscriptions, which starts at 1 and is never changed by any handler.
  * The audio-context unlock `await Tone.start()` is a one-time suspension
    with no observable effect on sequencer state; it is elided.
-/

/-- Drum instrument rows, as in the `instruments` array of `script.js`
(which additionally carries a sample `url` consumed only by the audio
engine; `part_001` has no urls and synthesizes instead). -/
structure Instrument where
  name : String
  label : String
deriving Repr, DecidableEq

/-- The fixed, ordered instrument set established at startup. -/
def instruments : List Instrument :=
  [⟨"kick", "Kick"⟩, ⟨"snare", "Snare"⟩, ⟨"hihat", "Hi-Hat"⟩, ⟨"clap", "Clap"⟩]

/-- Number of steps in the sequencer grid (`const steps = 16`). -/
def steps : Nat := 16

/-- The boolean activation matrix: one row per instrument, one column per step. -/
abbrev Pattern : Type := List (List Bool)

/-- Initial pattern: `instruments.map(() => Array(steps).fill(false))`. -/
def initPattern : Pattern := instruments.map (fun _ => List.replicate steps false)

/-- JS truthiness of a value that may be `undefined`: `undefined` is falsy. -/
def truthy (v : Option Bool) : Bool := v.getD false

/-- The raw matrix read `pattern[row][col]` for an in-bounds `row`:
`none` models the `undefined` produced by an out-of-bounds column. -/
def cellRead (p : Pattern) (row col : Nat) : Option Bool :=
  (p[row]?).bind (fun r => r[col]?)

/-- Truthiness of the matrix read, exactly the test
`if (pattern[rowIndex][currentStep])` of the tick handler. -/
def cellActive (p : Pattern) (row col : Nat) : Bool :=
  truthy (cellRead p row col)

/-- Errors JS evaluation can raise; reading a property of `undefined`
raises a TypeError. -/
inductive JsError where
  | typeError
deriving Repr, DecidableEq

/-- Full JS evaluation of the expression `pattern[row][col]`: when `row` is
out of bounds, `pattern[row]` is `undefined` and the subsequent `[col]`
access throws a TypeError; when `row` is in bounds the column access
yields either the cell's boolean or `undefined` (`none`). This is the
program's only way to read a cell's active state (the spec's `isActive`). -/
def jsRead (p : Pattern) (row col : Nat) : Except JsError (Option Bool) :=
  match p[row]? with
  | none => Except.error JsError.typeError
  | some r => Except.ok (r[col]?)

/-- The cell click handler of `buildSequencerGrid`:
`pattern[row][col] = !pattern[row][col]` followed by
`cell.classList.toggle('active', pattern[row][col])`. The handler is
attached only to cells with `row < instruments.length` and `col < steps`,
so both indices are in bounds whenever it runs; the returned boolean is
the re-read new value of the cell, reported to the rendering surface. -/
def toggle (p : Pattern) (row col : Nat) : Pattern × Bool :=
  let oldRow := (p[row]?).getD []
  let v := !(truthy (oldRow[col]?))
  (p.set row (oldRow.set col v), v)

/-- A Scheduled Trigger Event: the tick handler calls
`players[inst.name].start(time)` (resp. `triggerDrum(inst.name, time)`) for
the active row `rowIndex`; we record the row index, the instrument name the
dispatch uses, and the scheduled time. -/
structure TriggerEvent where
  row : Nat
  instrument : String
  scheduledTime : Int
deriving Repr, DecidableEq

/-- The whole observable state of the sequencer core: the pattern matrix,
the transport (cursor, running flag, bpm), the two control buttons'
`disabled` flags, the currently highlighted step (`highlightStep` gives the
`current` class to exactly one step column; `none` after
`clearStepHighlight`), the tempo read-out, and the number of live
tick-handler subscriptions on the transport. -/
structure SeqState where
  pattern : Pattern
  currentStep : Nat
  running : Bool
  bpm : Int
  tempoDisplay : Int
  playDisabled : Bool
  stopDisabled : Bool
  highlight : Option Nat
  subscriptions : Nat
deriving DecidableEq

/-- The tick handler registered once via `Tone.Transport.scheduleRepeat`:
highlight the current step, trigger every instrument row whose cell at the
current step is active — all with the single scheduled time `t` the clock
passed in — then advance `currentStep = (currentStep + 1) % steps`. -/
def tick (st : SeqState) (t : Int) : SeqState × List TriggerEvent :=
  let s := st.currentStep
  let events := (instruments.enum).filterMap (fun ri =>
    if cellActive st.pattern ri.1 s then
      some { row := ri.1, instrument := ri.2.name, scheduledTime := t }
    else none)
  ({ st with highlight := some s, currentStep := (s + 1) % steps }, events)

/-- Body of the play button's click handler: after the audio-context
unlock resolves, reset the cursor to 0, start the transport, disable play
and enable stop. -/
def playHandler (st : SeqState) : SeqState :=
  { st with currentStep := 0, running := true,
            playDisabled := true, stopDisabled := false }

/-- A click on the play button: a disabled button dispatches no click
event, so the handler body runs only when play is enabled. -/
def clickPlay (st : SeqState) : SeqState :=
  if st.playDisabled then st else playHandler st

/-- Body of the stop button's click handler: stop the transport, reset the
cursor to 0, clear the step highlight, enable play and disable stop. -/
def stopHandler (st : SeqState) : SeqState :=
  { st with running := false, currentStep := 0, highlight := none,
            playDisabled := false, stopDisabled := true }

/-- A click on the stop button: a disabled button dispatches no click
event, so the handler body runs only when stop is enabled. -/
def clickStop (st : SeqState) : SeqState :=
  if st.stopDisabled then st else stopHandler st

/-- Modelled from the spec: the tempo slider itself. It is a range input
declared in `index.html`, which is not among the source files; the spec
(and the repository's README) give its configured range as 60–180 BPM, and
a range input clamps any value into its `[min, max]` range, so the value
the input event exposes is the input bpm clamped to the nearest bound. -/
def sliderClamp (bpm : Int) : Int := min 180 (max 60 bpm)

/-- The tempo slider's input handler: read the slider's (already clamped)
value, apply it to the transport clock's rate, and show it in the tempo
read-out. Nothing else is touched. -/
def tempoInputHandler (st : SeqState) (sliderValue : Int) : SeqState :=
  { st with bpm := sliderValue, tempoDisplay := sliderValue }

/-- The `setTempo(bpm)` operation as the user performs it: move the slider
to `bpm` (the range input clamps it) and let the input handler apply the
slider's value. -/
def setTempo (st : SeqState) (bpm : Int) : SeqState :=
  tempoInputHandler st (sliderClamp bpm)

/-- A cell click on the full state: only the pattern matrix changes; the
returned boolean is the new value of the clicked cell. -/
def cellClick (st : SeqState) (row col : Nat) : SeqState × Bool :=
  let pv := toggle st.pattern row col
  ({ st with pattern := pv.1 }, pv.2)

/-- State as `setupControls` leaves it: empty pattern, cursor 0, stopped,
exactly one tick-handler subscription (the single `scheduleRepeat` call).
The buttons' initial `disabled` flags live in `index.html`, which is not
among the source files; modelled from the spec: the transport starts in
`Stopped` with the start control available. The slider's initial value is
left as the parameter `bpm0`. -/
def initState (bpm0 : Int) : SeqState :=
  { pattern := initPattern, currentStep := 0, running := false, bpm := bpm0,
    tempoDisplay := bpm0, playDisabled := false, stopDisabled := true,
    highlight := none, subscriptions := 1 }

/-- Step indices the cursor visits over `n` successive ticks (the state
part of `tick` does not depend on the scheduled time, so it is passed 0). -/
def visitedSteps (st : SeqState) : Nat → List Nat
  | 0 => []
  | n + 1 => st.currentStep :: visitedSteps (tick st 0).1 n

/-- Concrete state used by witnesses: the empty session with the cell
(kick, step 0) toggled on. -/
def demoState : SeqState := { initState 120 with pattern := (toggle initPattern 0 0).1 }

/-! Helper lemmas shared by the claim theorems. -/

theorem tick_fst_currentStep (st : SeqState) (t : Int) :
    (tick st t).1.currentStep = (st.currentStep + 1) % steps := rfl

theorem instruments_enum_eq :
    instruments.enum = [(0, ⟨"kick", "Kick"⟩), (1, ⟨"snare", "Snare"⟩),
      (2, ⟨"hihat", "Hi-Hat"⟩), (3, ⟨"clap", "Clap"⟩)] := rfl

theorem tick_snd_mem (st : SeqState) (t : Int) (e : TriggerEvent)
    (he : e ∈ (tick st t).2) :
    e.scheduledTime = t
      ∧ (instruments[e.row]?).map Instrument.name = some e.instrument
      ∧ cellActive st.pattern e.row st.currentStep = true := by
  rw [tick] at he
  simp only [List.mem_filterMap, instruments_enum_eq] at he
  obtain ⟨a, ha, hfa⟩ := he
  simp only [List.mem_cons, List.mem_singleton, List.not_mem_nil, or_false] at ha
  rcases ha with rfl | rfl | rfl | rfl <;> split at hfa <;>
    first
      | exact Option.noConfusion hfa
      | (injection hfa with hfa; subst hfa; refine ⟨rfl, ?_, by assumption⟩; simp [instruments])

theorem tick_rows (st : SeqState) (t : Int) :
    (tick st t).2.map TriggerEvent.row
      = (List.range instruments.length).filter
          (fun row => cellActive st.pattern row st.currentStep) := by
  have hrg : List.range instruments.length = [0, 1, 2, 3] := rfl
  rw [tick, instruments_enum_eq, hrg]
  by_cases h0 : cellActive st.pattern 0 st.currentStep <;>
  by_cases h1 : cellActive st.pattern 1 st.currentStep <;>
  by_cases h2 : cellActive st.pattern 2 st.currentStep <;>
  by_cases h3 : cellActive st.pattern 3 st.currentStep <;>
  simp [h0, h1, h2, h3]

theorem set_getElem_self {α : Type} (l : List α) (i : Nat) (h : i < l.length) :
    l.set i l[i] = l := by
  apply List.ext_getElem?
  intro n
  by_cases hn : i = n
  · subst hn; rw [List.getElem?_set_eq_of_lt _ h, List.getElem?_eq_getElem h]
  · rw [List.getElem?_set_ne hn]

theorem visitedSteps_congr (n : Nat) (st1 st2 : SeqState)
    (h : st1.currentStep = st2.currentStep) :
    visitedSteps st1 n = visitedSteps st2 n := by
  induction n generalizing st1 st2 with
  | zero => rfl
  | succ n ih =>
      simp only [visitedSteps, h]
      congr 1
      exact ih _ _ (by simp [tick_fst_currentStep, h])

theorem toggle_cellRead_other (p : Pattern) (row col r c : Nat)
    (h : r ≠ row ∨ c ≠ col) :
    cellRead (toggle p row col).1 r c = cellRead p r c := by
  by_cases hrow : r = row
  · subst hrow
    have hc : c ≠ col := h.resolve_left (by simp)
    by_cases hlen : r < p.length
    · have hget : p[r]? = some p[r] := List.getElem?_eq_getElem hlen
      simp only [toggle, cellRead, hget, Option.getD_some,
        List.getElem?_set_eq_of_lt _ hlen, Option.some_bind]
      rw [List.getElem?_set_ne (Ne.symm hc)]
    · have hle : p.length ≤ r := Nat.le_of_not_lt hlen
      simp only [toggle, cellRead, List.set_eq_of_length_le hle]
  · simp only [toggle, cellRead]
    rw [List.getElem?_set_ne (Ne.symm hrow)]

theorem toggle_reads (p : Pattern) (row col : Nat)
    (hr : row < p.length) (hc : col < ((p[row]?).getD []).length) :
    cellRead (toggle p row col).1 row col = some ((toggle p row col).2)
    ∧ (toggle p row col).2 = !(cellActive p row col) := by
  have hget : p[row]? = some p[row] := List.getElem?_eq_getElem hr
  have hcl : col < p[row].length := by simpa [hget] using hc
  have hcget : (p[row])[col]? = some (p[row])[col] := List.getElem?_eq_getElem hcl
  constructor
  · simp only [toggle, cellRead, hget, Option.getD_some, List.getElem?_set_eq_of_lt _ hr,
      Option.some_bind, List.getElem?_set_eq_of_lt _ hcl]
  · simp only [toggle, cellActive, cellRead, hget, Option.getD_some, Option.some_bind,
      hcget, truthy]

theorem toggle_toggle (p : Pattern) (row col : Nat)
    (hr : row < p.length) (hc : col < ((p[row]?).getD []).length) :
    (toggle (toggle p row col).1 row col).1 = p := by
  have hget : p[row]? = some p[row] := List.getElem?_eq_getElem hr
  have hcl : col < p[row].length := by simpa [hget] using hc
  have hcget : (p[row])[col]? = some (p[row])[col] := List.getElem?_eq_getElem hcl
  have h1 : (toggle p row col).1 = p.set row ((p[row]).set col (!(p[row])[col])) := by
    simp only [toggle, hget, Option.getD_some, hcget, truthy]
  rw [h1]
  have hq : (p.set row ((p[row]).set col (!(p[row])[col])))[row]?
      = some ((p[row]).set col (!(p[row])[col])) := List.getElem?_set_eq_of_lt _ hr
  have hv : ((p[row]).set col (!(p[row])[col]))[col]? = some (!(p[row])[col]) :=
    List.getElem?_set_eq_of_lt _ hcl
  simp only [toggle, hq, Option.getD_some, hv, truthy, Bool.not_not]
  rw [List.set_set, List.set_set, set_getElem_self _ _ hcl, set_getElem_self _ _ hr]

/-- C1: a tick with scheduled time `t` and cursor `s < steps` emits exactly
one trigger event per instrument row whose cell `(row, s)` is active (the
rows of the emitted events are exactly the active rows, each once, in row
order), every event carries the row's instrument and the scheduled time
`t`, and the cursor afterwards is `(s + 1) % steps`. -/
theorem tick_emits_exactly_active_cells_then_advances (st : SeqState) (t : Int)
    (h : st.currentStep < steps) :
    ((tick st t).2.map TriggerEvent.row
        = (List.range instruments.length).filter
            (fun row => cellActive st.pattern row st.currentStep))
    ∧ (∀ e ∈ (tick st t).2,
        e.scheduledTime = t
          ∧ (instruments[e.row]?).map Instrument.name = some e.instrument)
    ∧ (tick st t).1.currentStep = (st.currentStep + 1) % steps :=
  ⟨tick_rows st t,
   fun e he => ⟨(tick_snd_mem st t e he).1, (tick_snd_mem st t e he).2.1⟩,
   tick_fst_currentStep st t⟩

theorem tick_emits_exactly_active_cells_then_advances_witness :
    demoState.currentStep < steps
    ∧ (tick demoState 7).1.currentStep = (demoState.currentStep + 1) % steps :=
  ⟨by decide,
   (tick_emits_exactly_active_cells_then_advances demoState 7 (by decide)).2.2⟩

/-- C6: every trigger event emitted within a single tick carries the
identical scheduled time, namely the single time value the clock passed to
the tick callback. -/
theorem tick_triggers_share_scheduled_time (st : SeqState) (t : Int) :
    ∀ e ∈ (tick st t).2, e.scheduledTime = t :=
  fun e he => (tick_snd_mem st t e he).1

theorem tick_triggers_share_scheduled_time_witness :
    (⟨0, "kick", 7⟩ : TriggerEvent) ∈ (tick demoState 7).2
    ∧ (⟨0, "kick", 7⟩ : TriggerEvent).scheduledTime = 7 :=
  ⟨by decide,
   tick_triggers_share_scheduled_time demoState 7 ⟨0, "kick", 7⟩ (by decide)⟩

/-- C2: with the single tick-handler subscription made at setup, clicking
play a second time without an intervening stop is a no-op (the first click
disables the play button, and a disabled button dispatches no click, so
the whole state — cursor included — is unchanged), exactly one
subscription remains, and a tick after the two clicks still triggers each
active cell at most once (its trigger rows are pairwise distinct). -/
theorem start_twice_single_subscription (st : SeqState) (h : st.subscriptions = 1) :
    clickPlay (clickPlay st) = clickPlay st
    ∧ (clickPlay (clickPlay st)).subscriptions = 1
    ∧ (∀ t, ((tick (clickPlay (clickPlay st)) t).2.map TriggerEvent.row).Nodup) := by
  have hpd : (clickPlay st).playDisabled = true := by
    by_cases hp : st.playDisabled <;> simp [clickPlay, playHandler, hp]
  have hguard : ∀ s : SeqState, s.playDisabled = true → clickPlay s = s := by
    intro s hs
    simp [clickPlay, hs]
  have hnoop : clickPlay (clickPlay st) = clickPlay st := hguard _ hpd
  refine ⟨hnoop, ?_, ?_⟩
  · rw [hnoop]
    by_cases hp : st.playDisabled <;> simp [clickPlay, playHandler, hp, h]
  · intro t
    rw [tick_rows]
    exact (List.nodup_range _).filter _

theorem start_twice_single_subscription_witness :
    (initState 120).subscriptions = 1
    ∧ clickPlay (clickPlay (initState 120)) = clickPlay (initState 120) :=
  ⟨rfl, (start_twice_single_subscription (initState 120) rfl).1⟩

/-- C3: the tempo operation applies the slider's value, which the range
input clamps into the configured 60–180 BPM range: an in-range input
reaches the clock unchanged, an out-of-range input is clamped to the
nearest bound. The clamp itself is modelled from the spec, because the
range input lives in `index.html`, which is not among the source files. -/
theorem setTempo_clamps_to_bounds (st : SeqState) (b : Int) :
    (60 ≤ b → b ≤ 180 → (setTempo st b).bpm = b)
    ∧ (b < 60 → (setTempo st b).bpm = 60)
    ∧ (180 < b → (setTempo st b).bpm = 180) := by
  refine ⟨?_, ?_, ?_⟩ <;> intros <;>
    simp only [setTempo, tempoInputHandler, sliderClamp, min_def, max_def] <;>
    split_ifs <;> omega

theorem setTempo_clamps_to_bounds_witness :
    (setTempo (initState 120) 200).bpm = 180 :=
  (setTempo_clamps_to_bounds (initState 120) 200).2.2 (by decide)

/-- C4 counterexample: the read of pattern cell (0, 16) — an in-bounds row
with an out-of-bounds step — succeeds with the value `undefined` (treated
as inactive) instead of failing with an OutOfRange/InvalidIndex error, so
the out-of-bounds read does return a value. -/
theorem isActive_oob_step_returns_value :
    jsRead initPattern 0 16 = Except.ok none := rfl

/-- C4 amended: only an out-of-bounds row makes the cell read fail (with a
TypeError, from reading a property of `undefined`); an in-bounds row with
an out-of-bounds step succeeds returning `undefined` (`none`, treated as
inactive) rather than an error; in-bounds indices totally return the
cell's boolean. -/
theorem jsRead_bounds_behavior (p : Pattern) (row col : Nat)
    (hlen : p.length = instruments.length)
    (hrows : ∀ r ∈ p, r.length = steps) :
    (instruments.length ≤ row → jsRead p row col = Except.error JsError.typeError)
    ∧ (row < instruments.length → steps ≤ col → jsRead p row col = Except.ok none)
    ∧ (row < instruments.length → col < steps →
        ∃ b : Bool, jsRead p row col = Except.ok (some b)) := by
  refine ⟨?_, ?_, ?_⟩
  · intro h
    have hnone : p[row]? = none := List.getElem?_eq_none (by omega)
    simp [jsRead, hnone]
  · intro h1 h2
    have hrl : row < p.length := by omega
    have hget : p[row]? = some p[row] := List.getElem?_eq_getElem hrl
    have hlr : (p[row]).length = steps := hrows _ (List.getElem_mem hrl)
    have hcnone : (p[row])[col]? = none := List.getElem?_eq_none (by omega)
    simp [jsRead, hget, hcnone]
  · intro h1 h2
    have hrl : row < p.length := by omega
    have hget : p[row]? = some p[row] := List.getElem?_eq_getElem hrl
    have hlr : (p[row]).length = steps := hrows _ (List.getElem_mem hrl)
    have hcget : (p[row])[col]? = some (p[row])[col] :=
      List.getElem?_eq_getElem (by omega)
    exact ⟨(p[row])[col], by simp [jsRead, hget, hcget]⟩

theorem jsRead_bounds_behavior_witness :
    ∃ b : Bool, jsRead initPattern 0 0 = Except.ok (some b) :=
  (jsRead_bounds_behavior initPattern 0 0 (by decide) (by decide)).2.2
    (by decide) (by decide)

/-- C5: on a valid cell, a single toggle flips the boolean at exactly that
cell (every other cell is untouched) and returns the new value of that
cell; toggling the same cell twice returns the matrix to its original
state. -/
theorem toggle_involution_flips_cell (p : Pattern) (row col : Nat)
    (hr : row < p.length) (hc : col < ((p[row]?).getD []).length) :
    (toggle (toggle p row col).1 row col).1 = p
    ∧ (toggle p row col).2 = !(cellActive p row col)
    ∧ cellRead (toggle p row col).1 row col = some ((toggle p row col).2)
    ∧ (∀ r c : Nat, r ≠ row ∨ c ≠ col →
        cellRead (toggle p row col).1 r c = cellRead p r c) :=
  ⟨toggle_toggle p row col hr hc,
   (toggle_reads p row col hr hc).2,
   (toggle_reads p row col hr hc).1,
   fun r c h => toggle_cellRead_other p row col r c h⟩

theorem toggle_involution_flips_cell_witness :
    (toggle (toggle initPattern 0 0).1 0 0).1 = initPattern :=
  (toggle_involution_flips_cell initPattern 0 0 (by decide) (by decide)).1

/-- C7: the cursor invariant `currentStep < steps` (the lower bound `0 ≤`
holds by the `Nat` representation) holds in the initial state and is
preserved by every operation of the core: the tick wraps the cursor modulo
`steps`, play and stop clicks reset it to 0 (or leave the state alone when
the button is disabled), and the tempo and cell-toggle operations do not
touch it. -/
theorem currentStep_invariant (st : SeqState) (h : st.currentStep < steps) :
    (∀ b : Int, (initState b).currentStep < steps)
    ∧ (∀ t : Int, (tick st t).1.currentStep < steps)
    ∧ (clickPlay st).currentStep < steps
    ∧ (clickStop st).currentStep < steps
    ∧ (∀ b : Int, (setTempo st b).currentStep < steps)
    ∧ (∀ row col : Nat, (cellClick st row col).1.currentStep < steps) := by
  have hs : 0 < steps := by norm_num [steps]
  refine ⟨fun b => hs, fun t => ?_, ?_, ?_, fun b => h, fun row col => h⟩
  · rw [tick_fst_currentStep]
    exact Nat.mod_lt _ hs
  · by_cases hp : st.playDisabled <;> simp [clickPlay, playHandler, hp, h, hs]
  · by_cases hp : st.stopDisabled <;> simp [clickStop, stopHandler, hp, h, hs]

theorem currentStep_invariant_witness :
    (initState 120).currentStep < steps
    ∧ (tick (initState 120) 7).1.currentStep < steps :=
  ⟨by decide, (currentStep_invariant (initState 120) (by decide)).2.1 7⟩

/-- C8: the stop operation is idempotent — clicking stop twice in a row
leaves exactly the state of clicking it once (running flag, cursor,
highlight, button enablement included) — and clicking stop while it is
already disabled (the Stopped state) is a no-op. -/
theorem stop_idempotent (st : SeqState) :
    clickStop (clickStop st) = clickStop st
    ∧ (st.stopDisabled = true → clickStop st = st) := by
  have hguard : ∀ s : SeqState, s.stopDisabled = true → clickStop s = s := by
    intro s hs
    simp [clickStop, hs]
  have hsd : (clickStop st).stopDisabled = true := by
    by_cases hp : st.stopDisabled <;> simp [clickStop, stopHandler, hp]
  exact ⟨hguard _ hsd, hguard st⟩

theorem stop_idempotent_witness :
    clickStop (initState 120) = initState 120 :=
  (stop_idempotent (initState 120)).2 rfl

/-- C9: changing the tempo to an in-bounds value while the transport is
running leaves the cursor and the pattern matrix unchanged, and the
sequence of step indices visited by any number of successive ticks is
exactly the one visited without the tempo change — no step is skipped or
repeated. -/
theorem setTempo_preserves_step_progression (st : SeqState) (b : Int)
    (hrun : st.running = true) (hlo : 60 ≤ b) (hhi : b ≤ 180) :
    (setTempo st b).currentStep = st.currentStep
    ∧ (setTempo st b).pattern = st.pattern
    ∧ (∀ n : Nat, visitedSteps (setTempo st b) n = visitedSteps st n) :=
  ⟨rfl, rfl, fun n => visitedSteps_congr n _ _ rfl⟩

theorem setTempo_preserves_step_progression_witness :
    (clickPlay (initState 120)).running = true
    ∧ visitedSteps (setTempo (clickPlay (initState 120)) 60) 3
        = visitedSteps (clickPlay (initState 120)) 3 :=
  ⟨by decide,
   (setTempo_preserves_step_progression (clickPlay (initState 120)) 60
      (by decide) (by decide) (by decide)).2.2 3⟩

/-- C10: a cell click on a valid cell changes only that one pattern cell:
every other cell reads the same before and after, and every transport and
control field of the state — cursor, running flag, tempo, tempo read-out,
button enablement, highlight, subscription count — is unchanged. The
instrument list is a module constant and cannot change. -/
theorem toggle_frame (st : SeqState) (row col : Nat)
    (hr : row < st.pattern.length) (hc : col < ((st.pattern[row]?).getD []).length) :
    (∀ r c : Nat, r ≠ row ∨ c ≠ col →
        cellRead (cellClick st row col).1.pattern r c = cellRead st.pattern r c)
    ∧ (cellClick st row col).1.currentStep = st.currentStep
    ∧ (cellClick st row col).1.running = st.running
    ∧ (cellClick st row col).1.bpm = st.bpm
    ∧ (cellClick st row col).1.tempoDisplay = st.tempoDisplay
    ∧ (cellClick st row col).1.playDisabled = st.playDisabled
    ∧ (cellClick st row col).1.stopDisabled = st.stopDisabled
    ∧ (cellClick st row col).1.highlight = st.highlight
    ∧ (cellClick st row col).1.subscriptions = st.subscriptions :=
  ⟨fun r c h => toggle_cellRead_other st.pattern row col r c h,
   rfl, rfl, rfl, rfl, rfl, rfl, rfl, rfl⟩

theorem toggle_frame_witness :
    cellRead (cellClick (initState 120) 0 0).1.pattern 1 1
      = cellRead (initState 120).pattern 1 1 :=
  (toggle_frame (initState 120) 0 0 (by decide) (by decide)).1 1 1 (Or.inl (by decide))
